import Mathlib

/-!
# Verification of the STAMINA C++ truncation-driven model builder

This file shallowly embeds the state-space exploration and sparse-matrix
construction core of the STAMINA C++ sources and proves (or refutes) the
frozen specification claims against it.

Two generations of the builder exist in the sources and both are embedded:

* the legacy builder `src/src/StaminaModelBuilder.cpp` (namespace `Legacy`
  here), whose exploration loop `buildMatrices` holds the skip/expand logic,
  the reachability (`piMap`) updates, the enqueue policy
  (`shouldEnqueue` / `getOrAddStateIndex`) and the initial-state check;
* the current builder `src/src/stamina/builder/StaminaModelBuilder.cpp`
  (namespace `Builder` here), which holds `getStateIndexOrAbsorbing`,
  `createTransition`, `flushToTransitionMatrix`,
  `connectTerminalStatesToAbsorbing`, `setUpAbsorbingState` and `build`.

Modelling conventions:

* C++ `float` / `double` probability and rate values are modelled as `Rat`;
  the claims under study are about control flow and the algebraic form of the
  updates, not about rounding.
* `CompressedState` (a storm bit vector) is modelled as `List Bool`;
  equality is structural, as in the source.
* storm's `BitVectorHashMap stateToId` is modelled as an association list
  `List (CompressedState × Nat)`; `unordered_map<StateType, float> piMap`
  as `List (Nat × Rat)`; `unordered_set` members as `List Nat` with
  membership, duplicate-free insertion and removal.
* the next-state generator (the oracle) is a function
  `CompressedState → List (List (CompressedState × Rat))` returning the raw
  choices; `generator->expand(stateToIdCallback)` is modelled by mapping the
  callback over every successor, threading the builder state exactly in
  call order.  Reward models, choice labels and state valuations — plumbing
  that no claim mentions — are elided.
* `StaminaMessages::errorExit` / `errorAndExit` (which terminate the
  process) are modelled by an `Except` error result; recoverable
  `StaminaMessages::error` and `warning` calls (which only print) are
  modelled by a log of emitted messages carried in the state.
-/

namespace Stamina

/-- A compressed state: storm's bit-vector valuation of program variables. -/
abbrev CompressedState := List Bool

/-- Errors surfaced through `StaminaMessages::errorExit` / `errorAndExit`. -/
inductive BuildError where
  /-- "Behavior for state ⟨idx⟩ was empty!" (legacy `buildMatrices`). -/
  | emptyBehavior (idx : Nat)
  /-- "Did not get \"Absorbing\" variable!" (`setUpAbsorbingState`). -/
  | noAbsorbingVariable
  /-- "Absorbing state setup failed!" (`setUpAbsorbingState`). -/
  | absorbingSetupFailed
  /-- "Absorbing state should be index 0! Got ⟨idx⟩" (`setUpAbsorbingState`). -/
  | absorbingMisplaced (idx : Nat)
  /-- "Did not add to transition matrix!" (`connectTerminalStatesToAbsorbing`). -/
  | didNotAddToMatrix
deriving DecidableEq, Repr

/-- Messages surfaced through the non-fatal `StaminaMessages::error` and
`StaminaMessages::warning` (they print and return). -/
inductive LoggedMessage where
  /-- "Unexpected behavior! State with index ⟨idx⟩ should have already been in
  the probability map, but it was not! ..." (legacy `shouldEnqueue`). -/
  | unexpectedState (idx : Nat)
  /-- "Initial states are empty!" (legacy `buildMatrices`). -/
  | initialStatesEmpty
  /-- "Behavior for perimeter state was empty!"
  (`connectTerminalStatesToAbsorbing`). -/
  | perimeterBehaviorEmpty
deriving DecidableEq, Repr

/-! ## Association-list operations

These mirror the operations the C++ code performs on
`storm::storage::BitVectorHashMap` (`stateToId`),
`std::unordered_map<StateType, float>` (`piMap`) and `std::unordered_set`
members.  `std::unordered_map::insert` does not overwrite an existing key;
`operator[]` is only ever used by the embedded code paths after presence has
been established, so it is modelled by a defaulted lookup plus an explicit
insert-if-absent where the source performs one. -/

/-- Lookup in the compressed-state-to-id map (`stateToId.contains` /
`stateToId.getValue`). -/
def lookupState (m : List (CompressedState × Nat)) (s : CompressedState) :
    Option Nat :=
  (m.find? (fun p => p.1 = s)).map (fun p => p.2)

/-- `stateToId.findOrAddAndGetBucket state newIndex` (also plain `findOrAdd`):
returns the registered id if `state` is present, otherwise registers it under
`idx`. -/
def findOrAdd (m : List (CompressedState × Nat)) (s : CompressedState)
    (idx : Nat) : Nat × List (CompressedState × Nat) :=
  match lookupState m s with
  | some i => (i, m)
  | none => (idx, m ++ [(s, idx)])

/-- `piMap.find(k) != piMap.end()`. -/
def mapFind (m : List (Nat × Rat)) (k : Nat) : Option Rat :=
  (m.find? (fun p => p.1 = k)).map (fun p => p.2)

/-- `piMap[k]` on a key whose presence the source has already ensured
(absent keys read as the freshly inserted `0.0`). -/
def mapGet (m : List (Nat × Rat)) (k : Nat) : Rat :=
  (mapFind m k).getD 0

/-- `piMap.insert({k, v})`: no overwrite of an existing key. -/
def mapInsertIfAbsent (m : List (Nat × Rat)) (k : Nat) (v : Rat) :
    List (Nat × Rat) :=
  match mapFind m k with
  | some _ => m
  | none => m ++ [(k, v)]

/-- `piMap[k] = v` on a present key (on an absent key the C++ `operator[]`
would first default-insert `0`; the embedded paths never assign to an absent
key, and for the one assigned value `v = 0` the defaulted read agrees). -/
def mapSet (m : List (Nat × Rat)) (k : Nat) (v : Rat) : List (Nat × Rat) :=
  m.map (fun p => if p.1 = k then (k, v) else p)

/-- `unordered_set::insert`. -/
def setInsert (s : List Nat) (v : Nat) : List Nat :=
  if s.contains v then s else s ++ [v]

/-- `tMap.remove(v)`. -/
def setRemove (s : List Nat) (v : Nat) : List Nat :=
  s.filter (fun x => x ≠ v)

/-- Accumulating map: applies a state-threading function to each element in
order (used to model storm's `expand` invoking the state-to-id callback on
each successor in sequence). -/
def accumMap {σ α β : Type} (f : σ → α → β × σ) (s : σ) :
    List α → List β × σ
  | [] => ([], s)
  | a :: as =>
    let bs := f s a
    let rest := accumMap f bs.2 as
    (bs.1 :: rest.1, rest.2)

end Stamina

namespace Stamina.Legacy

/-!
## The legacy builder (`src/src/StaminaModelBuilder.cpp`)

Mutable members of the legacy `StaminaModelBuilder` that the embedded
functions touch.  `tSet`, `tMap`, `stateMap` and `exploredStates` are
declared in the legacy header (not among the sources); their usage in the
`.cpp` file fixes them as sets of state indices.  `oracleCalls` counts the
`generator->expand` invocations (it instruments the single point where the
oracle is consulted) and `log` carries the non-fatal messages printed via
`StaminaMessages::error`. -/
structure BuilderState where
  stateToId : List (CompressedState × Nat)
  piMap : List (Nat × Rat)
  tSet : List Nat
  tMap : List Nat
  stateMap : List Nat
  exploredStates : List Nat
  statesToExplore : List (CompressedState × Nat)
  currentState : Nat
  matrixRows : List (Nat × Nat × Rat)
  currentRow : Nat
  currentRowGroup : Nat
  oracleCalls : Nat
  log : List LoggedMessage
deriving DecidableEq, Repr

/-- The raw behaviour of the oracle: for a compressed state, the list of
choices, each a list of `(successor compressed state, rate)` pairs. -/
abbrev Oracle := CompressedState → List (List (CompressedState × Rat))

/-- `StaminaModelBuilder::shouldEnqueue(previousState)` (legacy, lines
105–129).  Returns the boolean result together with the updated builder
state (the function inserts into `piMap` and may log an error). -/
def shouldEnqueue (b : BuilderState) (previousState : Nat) :
    Bool × BuilderState :=
  if (mapFind b.piMap previousState).isNone then
    (false, { b with
      piMap := b.piMap ++ [(previousState, 0)]
      log := b.log ++ [.unexpectedState previousState] })
  else
    let b :=
      if (mapFind b.piMap b.currentState).isNone then
        { b with piMap := b.piMap ++ [(b.currentState, 0)] }
      else b
    if mapGet b.piMap previousState = 0 then
      (true, b)
    else
      (!(b.stateMap.contains b.currentState &&
         b.exploredStates.contains b.currentState), b)

/-- `StaminaModelBuilder::getOrAddStateIndex` (legacy, lines 150–169): the
state-to-id callback handed to the generator.  Registers the state if new
and decides whether to push it onto `statesToExplore`; note that
`shouldEnqueue` is only invoked when `actualIndex == newIndex`
(short-circuit of C++ `&&`). -/
def getOrAddStateIndex (b : BuilderState) (state : CompressedState) :
    Nat × BuilderState :=
  let newIndex := b.stateToId.length
  let reg := findOrAdd b.stateToId state newIndex
  let actualIndex := reg.1
  let b := { b with stateToId := reg.2 }
  if actualIndex = newIndex then
    let se := shouldEnqueue b actualIndex
    if se.1 then
      (actualIndex,
        { se.2 with statesToExplore := se.2.statesToExplore ++ [(state, actualIndex)] })
    else (actualIndex, se.2)
  else (actualIndex, b)

/-- `generator->expand(stateToIdCallback)`: maps every successor compressed
state of every choice through `getOrAddStateIndex`, in order, threading the
builder state, and yields the choices over state indices. -/
def expandWithCallback (b : BuilderState)
    (raw : List (List (CompressedState × Rat))) :
    List (List (Nat × Rat)) × BuilderState :=
  accumMap
    (fun b choice =>
      accumMap
        (fun b (p : CompressedState × Rat) =>
          let r := getOrAddStateIndex b p.1
          ((r.1, p.2), r.2))
        b choice)
    b raw

/-- One `(s', rate)` iteration of the inner loop of `buildMatrices`
(legacy, lines 287–302): insert `s'` into `piMap` if absent, perform the
reachability update `piMap[sPrime] += piMap[currentIndex] * probability`,
update `exploredStates`, and append the edge to the matrix under
construction with the rate unchanged. -/
def processPair (curIdx : Nat) (b : BuilderState) (p : Nat × Rat) :
    BuilderState :=
  let sPrime := p.1
  let probability := p.2
  let piMap := mapInsertIfAbsent b.piMap sPrime 0
  let piMap := mapSet piMap sPrime
    (mapGet piMap sPrime + mapGet piMap curIdx * probability)
  let exploredStates :=
    if !(b.stateMap.contains sPrime && b.exploredStates.contains sPrime) then
      setInsert b.exploredStates sPrime
    else b.exploredStates
  { b with
    piMap := piMap
    exploredStates := exploredStates
    matrixRows := b.matrixRows ++ [(b.currentRow, sPrime, probability)] }

/-- One choice of the loop of `buildMatrices`: process all its
`(s', rate)` pairs, then `++currentRow`. -/
def processChoice (curIdx : Nat) (b : BuilderState) (choice : List (Nat × Rat)) :
    BuilderState :=
  let b := choice.foldl (processPair curIdx) b
  { b with currentRow := b.currentRow + 1 }

/-- All choices of the popped state (legacy `buildMatrices` lines 267–306). -/
def processChoices (curIdx : Nat) (b : BuilderState)
    (choices : List (List (Nat × Rat))) : BuilderState :=
  choices.foldl (processChoice curIdx) b

/-- The expansion branch of the `buildMatrices` loop body (legacy, lines
238–310): load the state, consult the oracle (counted in `oracleCalls`),
fail with `errorExit` on empty behaviour, otherwise remove the state from
`tMap` when its π is non-zero, process every choice, zero the state's π and
advance the row group. -/
def expandState (oracle : Oracle) (curState : CompressedState) (curIdx : Nat)
    (b : BuilderState) : Except BuildError BuilderState :=
  let b := { b with oracleCalls := b.oracleCalls + 1 }
  let ex := expandWithCallback b (oracle curState)
  let choices := ex.1
  let b := ex.2
  if choices.isEmpty then
    .error (.emptyBehavior curIdx)
  else
    let shouldEnqueueAll := mapGet b.piMap curIdx = 0
    let b :=
      if !shouldEnqueueAll && b.tMap.contains curIdx then
        { b with tMap := setRemove b.tMap curIdx }
      else b
    let b := processChoices curIdx b choices
    .ok { b with
      piMap := mapSet b.piMap curIdx 0
      currentRowGroup := b.currentRowGroup + 1 }

/-- One iteration of the `while (!statesToExplore.empty())` loop of the
legacy `buildMatrices` (lines 212–329): pop the front state, record it in
`piMap` if absent, and either skip it (state in `tSet` with π below κ,
lines 230–233) or expand it.  An empty queue leaves the state unchanged
(the loop exits). -/
def exploreStep (oracle : Oracle) (κ : Rat) (b : BuilderState) :
    Except BuildError BuilderState :=
  match b.statesToExplore with
  | [] => .ok b
  | (curState, curIdx) :: rest =>
    let b := { b with statesToExplore := rest, currentState := curIdx }
    let b := { b with piMap := mapInsertIfAbsent b.piMap curIdx 0 }
    if b.tSet.contains curIdx && decide (mapGet b.piMap curIdx < κ) then
      .ok b
    else
      expandState oracle curState curIdx b

/-- The initial-state check of the legacy `buildMatrices` (lines 194–198):
`if (!this->stateStorage.initialStateIndices.empty())` emit the error
message "Initial states are empty!" (non-fatal `StaminaMessages::error`).
Returns whether the message is emitted. -/
def initialStatesErrorEmitted (initialStateIndices : List Nat) : Bool :=
  !initialStateIndices.isEmpty

end Stamina.Legacy

namespace Stamina

/-- `storm::generator::ModelType` as dispatched on by the two `build`
methods. -/
inductive ModelType where
  | CTMC | DTMC | MDP | POMDP | MA
deriving DecidableEq, Repr

/-- The kind of sparse model handed to
`storm::utility::builder::buildModelFromComponents`. -/
inductive BuiltModelKind where
  | Ctmc | Dtmc
deriving DecidableEq, Repr

/-- Observable outcome of a `build()` call: the model returned to the caller
(`none` models the C++ `nullptr`), whether model components (and hence a
transition matrix) were constructed, and whether an error or a warning was
surfaced. -/
structure BuildOutcome where
  model : Option BuiltModelKind
  componentsBuilt : Bool
  errorSurfaced : Bool
  warningSurfaced : Bool
deriving DecidableEq, Repr

/-- The legacy `StaminaModelBuilder::build` dispatch
(`src/src/StaminaModelBuilder.cpp` lines 79–103): only `CTMC` reaches
`buildModelComponents`; `DTMC`, `MDP`, `POMDP`, `MA` and the default case
all fall through to `StaminaMessages::error("This model type is not
supported!")` and the function returns `nullptr`. -/
def legacyBuild (mt : ModelType) : BuildOutcome :=
  match mt with
  | .CTMC => { model := some .Ctmc, componentsBuilt := true
               errorSurfaced := false, warningSurfaced := false }
  | _ => { model := none, componentsBuilt := false
           errorSurfaced := true, warningSurfaced := false }

/-- The current `StaminaModelBuilder::build` dispatch
(`src/src/stamina/builder/StaminaModelBuilder.cpp` lines 57–85): `CTMC`
builds a CTMC; `DTMC` emits a warning ("This model is a DTMC. ... You may
get an error in checking.") and still builds and returns a DTMC model;
`MDP`, `POMDP`, `MA` and the default case surface an error and `nullptr`
is returned. -/
def build (mt : ModelType) : BuildOutcome :=
  match mt with
  | .CTMC => { model := some .Ctmc, componentsBuilt := true
               errorSurfaced := false, warningSurfaced := false }
  | .DTMC => { model := some .Dtmc, componentsBuilt := true
               errorSurfaced := false, warningSurfaced := true }
  | _ => { model := none, componentsBuilt := false
           errorSurfaced := true, warningSurfaced := false }

end Stamina

namespace Stamina.Builder

/-!
## The current builder (`src/src/stamina/builder/StaminaModelBuilder.cpp`)
-/

/-- `TransitionInfo { to, transition }` (builder header): a buffered
out-of-order matrix entry. -/
abbrev TransitionInfo := Nat × Rat

/-- The `transitionsToAdd` buffer: `transitionsToAdd[from]` is the list of
`TransitionInfo` recorded for source state `from`, in insertion order. -/
abbrev TransitionBuffer := List (List TransitionInfo)

/-- Row `i` of the transition buffer (out-of-range rows read as empty,
matching a vector that has not been grown up to `i`). -/
def bufferRow (tta : TransitionBuffer) (i : Nat) : List TransitionInfo :=
  tta.getD i []

/-- `StaminaModelBuilder::createTransition(from, to, probability)` (lines
141–150): grow the buffer with empty rows while
`transitionsToAdd.size() <= max(from, to)`, then append `(to, probability)`
to row `from`. -/
def createTransition (tta : TransitionBuffer) (frm dest : Nat) (probability : Rat) :
    TransitionBuffer :=
  let grown := tta ++ List.replicate (max frm dest + 1 - tta.length) []
  grown.set frm (bufferRow grown frm ++ [(dest, probability)])

/-- `StaminaModelBuilder::flushToTransitionMatrix` (lines 125–139): for each
row of the buffer in order, emit a `(row, row, 1)` self-loop if the row has
no buffered entries (the state is deadlock), otherwise emit the buffered
entries in their stored order, each as `(row, to, transition)`. -/
def flushToTransitionMatrix (tta : TransitionBuffer) : List (Nat × Nat × Rat) :=
  (List.range tta.length).flatMap (fun row =>
    if (bufferRow tta row).isEmpty then [(row, row, 1)]
    else (bufferRow tta row).map (fun ti => (row, ti.1, ti.2)))

/-- The entries the matrix builder received for row `r`, in order
(`addNextValue` is row-major, so this is the materialised row). -/
def matrixRowEntries (out : List (Nat × Nat × Rat)) (r : Nat) :
    List (Nat × Nat × Rat) :=
  out.filter (fun e => e.1 = r)

/-- `StaminaModelBuilder::getStateIndexOrAbsorbing` (lines 115–123): the
terminal-state callback.  Returns the registered id when the state is in
`stateStorage.stateToId` and `0` otherwise; the body only reads the store,
so the returned store is the argument itself. -/
def getStateIndexOrAbsorbing (stateToId : List (CompressedState × Nat))
    (state : CompressedState) : Nat × List (CompressedState × Nat) :=
  match lookupState stateToId state with
  | some i => (i, stateToId)
  | none => (0, stateToId)

/-- `StaminaModelBuilder::getOrAddStateIndex` (current builder, lines
95–113): looks the state up, otherwise prepares the next free index, and
registers the state via `findOrAdd` (which inserts exactly when the state
was absent). -/
def getOrAddStateIndex (stateToId : List (CompressedState × Nat))
    (state : CompressedState) : Nat × List (CompressedState × Nat) :=
  let newIndex := stateToId.length
  let actualIndex :=
    match lookupState stateToId state with
    | some i => i
    | none => newIndex
  (actualIndex, (findOrAdd stateToId state actualIndex).2)

/-- Processing of one choice by `connectTerminalStatesToAbsorbing` (lines
324–338): every pair whose (callback-mapped) id is non-zero becomes a
buffered transition with its rate unchanged; the rates of the pairs mapped
to id `0` are summed and recorded as a single transition to state `0`. -/
def connectChoice (stateId : Nat) (tta : TransitionBuffer)
    (choice : List (Nat × Rat)) : TransitionBuffer :=
  let step := choice.foldl
    (fun (acc : TransitionBuffer × Rat) p =>
      if p.1 ≠ 0 then (createTransition acc.1 stateId p.1 p.2, acc.2)
      else (acc.1, acc.2 + p.2))
    (tta, 0)
  createTransition step.1 stateId 0 step.2

/-- `StaminaModelBuilder::connectTerminalStatesToAbsorbing` (lines
308–342): re-expand the terminal state through the oracle with the given
state-to-id callback (the callers bind `terminalStateToIdCallback`, i.e.
`getStateIndexOrAbsorbing`); on empty behaviour warn and return the buffer
unchanged; otherwise process every choice and fail if no choice added a
value (unreachable when the behaviour is non-empty). -/
def connectTerminalStatesToAbsorbing (oracle : Legacy.Oracle)
    (cb : CompressedState → Nat) (terminalState : CompressedState)
    (stateId : Nat) (tta : TransitionBuffer) :
    Except BuildError (TransitionBuffer × List LoggedMessage) :=
  let behavior := (oracle terminalState).map
    (fun choice => choice.map (fun p => (cb p.1, p.2)))
  if behavior.isEmpty then
    .ok (tta, [.perimeterBehaviorEmpty])
  else
    let tta := behavior.foldl (connectChoice stateId) tta
    .ok (tta, [])

/-- Boolean program variables of `generator->getVariableInformation()`:
name and bit offset. -/
structure BooleanVariable where
  name : String
  bitOffset : Nat
deriving DecidableEq, Repr

/-- The slice of `storm::generator::VariableInformation` that
`setUpAbsorbingState` reads. -/
structure VariableInformation where
  booleanVariables : List BooleanVariable
  totalBitOffset : Nat
deriving DecidableEq, Repr

/-- The members of the current builder that `setUpAbsorbingState` touches. -/
structure SetupState where
  stateRemapping : List Nat
  absorbingState : CompressedState
  deadlockStateIndices : List Nat
  stateToId : List (CompressedState × Nat)
  absorbingWasSetUp : Bool
  firstIteration : Bool
deriving DecidableEq, Repr

/-- `CompressedState::setFromInt(bitOffset + 1, 1, 1)` on the zeroed
absorbing bit vector followed by the `getAsInt` read-back: set the single
bit at index `i`. -/
def setBit (cs : CompressedState) (i : Nat) : CompressedState :=
  cs.set i true

/-- `CompressedState::getAsInt(i, 1)` reading one bit. -/
def getBit (cs : CompressedState) (i : Nat) : Bool :=
  cs.getD i false

/-- The distinguished absorbing compressed state built by
`setUpAbsorbingState` (lines 246–257): a zeroed bit vector of
`getTotalBitOffset(true)` bits with the bit at `bitOffset + 1` of the
first boolean variable named "Absorbing" set. -/
def mkAbsorbingState (vi : VariableInformation) : Option CompressedState :=
  let zeroed : CompressedState := List.replicate vi.totalBitOffset false
  match vi.booleanVariables.find? (fun v => v.name = "Absorbing") with
  | some v => some (setBit zeroed (v.bitOffset + 1))
  | none => none

/-- `StaminaModelBuilder::setUpAbsorbingState` (lines 232–277): on the
first iteration (and when not already set up), push `0` onto the state
remapping, construct the absorbing compressed state (fatal error when no
"Absorbing" variable exists or the set bit does not read back as `1`),
record index `0` as a deadlock state, register the absorbing state via
`findOrAddAndGetBucket(absorbingState, 0)` and fail fatally unless the
returned index is `0`. -/
def setUpAbsorbingState (vi : VariableInformation) (st : SetupState) :
    Except BuildError SetupState :=
  if st.absorbingWasSetUp then .ok st
  else if st.firstIteration then
    let st := { st with stateRemapping := st.stateRemapping ++ [0] }
    match vi.booleanVariables.find? (fun v => v.name = "Absorbing") with
    | none => .error .noAbsorbingVariable
    | some v =>
      let zeroed : CompressedState := List.replicate vi.totalBitOffset false
      let absorbing := setBit zeroed (v.bitOffset + 1)
      if getBit absorbing (v.bitOffset + 1) ≠ true then
        .error .absorbingSetupFailed
      else
        let st := { st with
          absorbingState := absorbing
          deadlockStateIndices := st.deadlockStateIndices ++ [0] }
        let reg := findOrAdd st.stateToId absorbing 0
        if reg.1 ≠ 0 then .error (.absorbingMisplaced reg.1)
        else
          .ok { st with stateToId := reg.2, absorbingWasSetUp := true }
  else .ok st

/-- Modelled from the spec: the per-pass exploration driver of the current
builder (`buildMatrices` is declared pure-virtual in
`StaminaModelBuilder.h` and overridden in `StaminaPriorityModelBuilder.h`,
whose implementation file is not among the sources).  Per the spec, the
driver fills the transition buffer exclusively through `createTransition`
calls whose source is an expanded or terminal state, and the absorbing
state id `0` "is never expanded", so no call has source `0`.  A pass is
therefore modelled as the fold of its `createTransition` calls
`(from, to, rate)` over the empty buffer. -/
def passBuffer (events : List (Nat × Nat × Rat)) : TransitionBuffer :=
  events.foldl (fun tta e => createTransition tta e.1 e.2.1 e.2.2) []

/-- The total rate a choice sends to the absorbing state: the sum of the
rates of its pairs whose (callback-mapped) id is `0`. -/
def absorbedRate (choice : List (Nat × Rat)) : Rat :=
  ((choice.filter (fun p => p.1 = 0)).map (fun p => p.2)).sum

/-- The buffered transitions `connectTerminalStatesToAbsorbing` appends for
one id-mapped choice: the pairs with non-zero id in order, with their rates
unchanged, followed by the single absorbing edge carrying `absorbedRate`. -/
def choiceEdges (choice : List (Nat × Rat)) : List TransitionInfo :=
  choice.filter (fun p => p.1 ≠ 0) ++ [(0, absorbedRate choice)]

end Stamina.Builder

namespace Stamina.SpecModel

/-!
## Definitions written from the spec's words

These definitions follow the specification text, not the source; they exist
only to be compared against the source-derived definitions above
(refinement-style claims C3, C7 and C9). -/

/-- The spec's enqueue policy: "push `(s', R')` iff `R'.wasEnqueued == false`
AND (`was_new` OR `R'.terminal`)". -/
def enqueuePolicySpec (wasEnqueued wasNew terminal : Bool) : Bool :=
  !wasEnqueued && (wasNew || terminal)

/-- Insert a buffered transition into a by-destination-ascending,
duplicate-merged row (helper for the spec's description of the flush). -/
def insertSortedMerged (ti : Builder.TransitionInfo) :
    List Builder.TransitionInfo → List Builder.TransitionInfo
  | [] => [ti]
  | t :: ts =>
    if ti.1 < t.1 then ti :: t :: ts
    else if ti.1 = t.1 then (t.1, t.2 + ti.2) :: ts
    else t :: insertSortedMerged ti ts

/-- A buffered row as the spec's flush would emit it: sorted by destination
ascending with duplicate destinations merged by summing rates. -/
def sortMergeRow (row : List Builder.TransitionInfo) :
    List Builder.TransitionInfo :=
  row.foldl (fun acc ti => insertSortedMerged ti acc) []

/-- The flush as the spec describes it: "Flush-to-matrix sorts each inner
list by `to` ascending and merges duplicate `to` entries by summing rates.
Deadlock rows are materialised as self-loops with rate 1." -/
def flushSpec (tta : Builder.TransitionBuffer) : List (Nat × Nat × Rat) :=
  (List.range tta.length).flatMap (fun row =>
    if (Builder.bufferRow tta row).isEmpty then [(row, row, 1)]
    else (sortMergeRow (Builder.bufferRow tta row)).map
      (fun ti => (row, ti.1, ti.2)))

end Stamina.SpecModel

namespace Stamina.Examples

/-!
## Concrete inputs used by counterexamples and witnesses
-/

open Stamina.Legacy Stamina.Builder

/-- A legacy builder state with every member empty. -/
def baseBuilder : BuilderState :=
  { stateToId := [], piMap := [], tSet := [], tMap := [], stateMap := []
    exploredStates := [], statesToExplore := [], currentState := 0
    matrixRows := [], currentRow := 0, currentRowGroup := 0
    oracleCalls := 0, log := [] }

/-- An oracle with no behaviour for any state. -/
def emptyOracle : Oracle := fun _ => []

/-- An oracle for the two-state chain `[true] → [false]` with rate 2. -/
def chainOracle : Oracle := fun s =>
  if s = [true] then [[([false], (2 : Rat))]] else []

/-- A terminal state `[true]` (id 1) queued with π = 1 (below a threshold
κ = 2, at or above a threshold κ = 1). -/
def skipBuilder : BuilderState :=
  { baseBuilder with
    stateToId := [([false, false], 0), ([true], 1)]
    piMap := [(1, 1)]
    tSet := [1]
    tMap := [1]
    statesToExplore := [([true], 1)] }

/-- A builder whose store registers `[true] ↦ 0` and `[false] ↦ 1` with
`[false]` terminal (in `tSet`) and nothing queued. -/
def registeredTerminalBuilder : BuilderState :=
  { baseBuilder with
    stateToId := [([true], 0), ([false], 1)]
    piMap := [(0, 0), (1, 1)]
    tSet := [1] }

/-- The transition buffer `[[], [(2,5), (1,3), (1,4)]]`: row 1 holds
out-of-order entries with a duplicate destination. -/
def unsortedBuffer : TransitionBuffer :=
  [[], [(2, (5 : Rat)), (1, 3), (1, 4)]]

/-- The transition buffer `[[], [(2,5), (1,3)]]`: row 1 holds out-of-order
entries with distinct destinations. -/
def unsortedNoDupBuffer : TransitionBuffer :=
  [[], [(2, (5 : Rat)), (1, 3)]]

/-- The skip builder under a threshold κ = 1: its queued state's π equals
the threshold, so popping it expands it. -/
def expBuilder : BuilderState :=
  skipBuilder

/-- An oracle whose behaviour is a single choice with no successor pairs
(non-empty behaviour, so expansion completes). -/
def emptyChoiceOracle : Legacy.Oracle := fun _ => [[]]

/-- The builder state that expanding `[true]` (id 1) in `expBuilder` under
`emptyChoiceOracle` produces. -/
def expandedBuilder : BuilderState :=
  { stateToId := [([false, false], 0), ([true], 1)]
    piMap := [(1, 0)]
    tSet := [1], tMap := [], stateMap := []
    exploredStates := []
    statesToExplore := [([true], 1)]
    currentState := 0
    matrixRows := []
    currentRow := 1, currentRowGroup := 1
    oracleCalls := 1
    log := [] }

/-- Two buffered-edge events, neither with source 0. -/
def passEvents : List (Nat × Nat × Rat) :=
  [(3, 0, 1), (2, 1, 5)]

/-- Variable information with a single boolean variable "Absorbing" at bit
offset 0 out of 3 total bits. -/
def absorbingVarInfo : VariableInformation :=
  { booleanVariables := [{ name := "Absorbing", bitOffset := 0 }]
    totalBitOffset := 3 }

/-- A fresh setup state (first iteration, nothing registered). -/
def freshSetup : SetupState :=
  { stateRemapping := [], absorbingState := [], deadlockStateIndices := []
    stateToId := [], absorbingWasSetUp := false, firstIteration := true }

end Stamina.Examples

namespace Stamina

/-!
## Helper lemmas
-/

theorem mapGet_mapInsertIfAbsent_zero (m : List (Nat × Rat)) (k x : Nat) :
    mapGet (mapInsertIfAbsent m k 0) x = mapGet m x := by
  unfold mapInsertIfAbsent
  cases h : mapFind m k with
  | some v => rfl
  | none =>
    unfold mapGet mapFind
    rw [List.find?_append]
    cases h2 : List.find? (fun p => p.1 = x) m with
    | some pr => simp
    | none =>
      by_cases hx : k = x <;> simp [List.find?, hx]

theorem mapFind_mapInsertIfAbsent_self (m : List (Nat × Rat)) (k : Nat) (v : Rat) :
    mapFind (mapInsertIfAbsent m k v) k = some ((mapFind m k).getD v) := by
  unfold mapInsertIfAbsent
  cases h : mapFind m k with
  | some w => simpa using h
  | none =>
    unfold mapFind at h ⊢
    rw [List.find?_append]
    cases hf : List.find? (fun p => p.1 = k) m with
    | some pr => rw [hf] at h; simp at h
    | none => simp [List.find?]

theorem mapFind_mapSet (m : List (Nat × Rat)) (k x : Nat) (v : Rat) :
    mapFind (mapSet m k v) x =
      if x = k then (mapFind m k).map (fun _ => v) else mapFind m x := by
  induction m with
  | nil => by_cases hxk : x = k <;> simp [mapSet, mapFind, hxk]
  | cons p m ih =>
    unfold mapFind mapSet at ih ⊢
    by_cases hpk : p.1 = k <;> by_cases hxk : x = k <;>
      by_cases hpx : p.1 = x <;>
      simp_all [List.find?_cons]

theorem mapGet_mapSet_zero (m : List (Nat × Rat)) (k : Nat) :
    mapGet (mapSet m k 0) k = 0 := by
  unfold mapGet
  rw [mapFind_mapSet]
  cases mapFind m k <;> simp

theorem mapGet_mapSet_present (m : List (Nat × Rat)) (k : Nat) (v : Rat)
    (h : (mapFind m k).isSome) : mapGet (mapSet m k v) k = v := by
  unfold mapGet
  rw [mapFind_mapSet]
  cases hf : mapFind m k with
  | none => rw [hf] at h; simp at h
  | some w => simp

/-- Preservation of a predicate by `accumMap`'s threaded state. -/
theorem accumMap_pres {σ α β : Type} (f : σ → α → β × σ) (P : σ → Prop)
    (hf : ∀ s a, P s → P ((f s a).2)) :
    ∀ (l : List α) (s : σ), P s → P ((accumMap f s l).2) := by
  intro l
  induction l with
  | nil => intro s hs; exact hs
  | cons a as ih => intro s hs; exact ih ((f s a).2) (hf s a hs)

/-- Preservation of a predicate by a left fold, with membership. -/
theorem foldl_pres {σ α : Type} (f : σ → α → σ) (P : σ → Prop) :
    ∀ (l : List α) (s : σ), (∀ s' a, a ∈ l → P s' → P (f s' a)) → P s →
      P (l.foldl f s) := by
  intro l
  induction l with
  | nil => intro s _ hs; exact hs
  | cons a as ih =>
    intro s hf hs
    exact ih (f s a) (fun s' x hx => hf s' x (List.mem_cons_of_mem a hx))
      (hf s a (List.mem_cons_self a as) hs)

theorem shouldEnqueue_oracleCalls (b : Legacy.BuilderState) (p : Nat) :
    (Legacy.shouldEnqueue b p).2.oracleCalls = b.oracleCalls := by
  simp only [Legacy.shouldEnqueue]
  repeat' split
  all_goals rfl

theorem getOrAddStateIndex_oracleCalls (b : Legacy.BuilderState)
    (s : CompressedState) :
    (Legacy.getOrAddStateIndex b s).2.oracleCalls = b.oracleCalls := by
  simp only [Legacy.getOrAddStateIndex]
  repeat' split
  all_goals simp [shouldEnqueue_oracleCalls]

theorem expandWithCallback_oracleCalls (b : Legacy.BuilderState)
    (raw : List (List (CompressedState × Rat))) :
    (Legacy.expandWithCallback b raw).2.oracleCalls = b.oracleCalls := by
  unfold Legacy.expandWithCallback
  refine accumMap_pres
    (fun b choice => accumMap
      (fun b (p : CompressedState × Rat) =>
        let r := Legacy.getOrAddStateIndex b p.1
        ((r.1, p.2), r.2))
      b choice)
    (fun st => st.oracleCalls = b.oracleCalls) ?_ raw b rfl
  intro st choice hst
  refine accumMap_pres
    (fun b (p : CompressedState × Rat) =>
      let r := Legacy.getOrAddStateIndex b p.1
      ((r.1, p.2), r.2))
    (fun st' => st'.oracleCalls = b.oracleCalls) ?_ choice st hst
  intro st' pr hst'
  show (Legacy.getOrAddStateIndex st' pr.1).2.oracleCalls = _
  rw [getOrAddStateIndex_oracleCalls, hst']

theorem processChoices_oracleCalls (curIdx : Nat) (b : Legacy.BuilderState)
    (choices : List (List (Nat × Rat))) :
    (Legacy.processChoices curIdx b choices).oracleCalls = b.oracleCalls := by
  simp only [Legacy.processChoices]
  refine foldl_pres _ (fun st => st.oracleCalls = b.oracleCalls) choices b ?_ rfl
  intro st choice _ hst
  simp only [Legacy.processChoice]
  refine foldl_pres _ (fun st' => st'.oracleCalls = b.oracleCalls) choice st ?_ hst
  intro st' pr _ hst'
  simpa [Legacy.processPair] using hst'

theorem expandState_ok_oracleCalls (oracle : Legacy.Oracle)
    (s : CompressedState) (idx : Nat) (b b' : Legacy.BuilderState)
    (h : Legacy.expandState oracle s idx b = .ok b') :
    b'.oracleCalls = b.oracleCalls + 1 := by
  simp only [Legacy.expandState] at h
  split at h
  · exact absurd h (by simp)
  · injection h with h
    subst h
    show (Legacy.processChoices _ _ _).oracleCalls = _
    rw [processChoices_oracleCalls]
    split <;> rw [expandWithCallback_oracleCalls]

theorem expandState_ok_piZero (oracle : Legacy.Oracle)
    (s : CompressedState) (idx : Nat) (b b' : Legacy.BuilderState)
    (h : Legacy.expandState oracle s idx b = .ok b') :
    mapGet b'.piMap idx = 0 := by
  simp only [Legacy.expandState] at h
  split at h
  · exact absurd h (by simp)
  · injection h with h
    subst h
    exact mapGet_mapSet_zero _ idx

theorem expandState_error_shape (oracle : Legacy.Oracle)
    (s : CompressedState) (idx : Nat) (b : Legacy.BuilderState)
    (e : BuildError) (h : Legacy.expandState oracle s idx b = .error e) :
    e = .emptyBehavior idx := by
  simp only [Legacy.expandState] at h
  split at h
  · injection h with h; exact h.symm
  · exact absurd h (by simp)

theorem bufferRow_append_replicate (tta : Builder.TransitionBuffer)
    (n i : Nat) :
    Builder.bufferRow (tta ++ List.replicate n []) i = Builder.bufferRow tta i := by
  unfold Builder.bufferRow
  rw [List.getD_eq_getElem?_getD, List.getD_eq_getElem?_getD,
    List.getElem?_append]
  split
  · rfl
  · have hge : tta.length ≤ i := Nat.le_of_not_lt (by assumption)
    rw [List.getElem?_eq_none hge, List.getElem?_replicate]
    split <;> rfl

theorem length_createTransition (tta : Builder.TransitionBuffer)
    (f d : Nat) (p : Rat) :
    (Builder.createTransition tta f d p).length =
      max (max f d + 1) tta.length := by
  simp only [Builder.createTransition]
  rw [List.length_set, List.length_append, List.length_replicate]
  omega

theorem bufferRow_createTransition_self (tta : Builder.TransitionBuffer)
    (f d : Nat) (p : Rat) :
    Builder.bufferRow (Builder.createTransition tta f d p) f =
      Builder.bufferRow tta f ++ [(d, p)] := by
  simp only [Builder.createTransition]
  have hlen : f < (tta ++ List.replicate (max f d + 1 - tta.length) []).length := by
    rw [List.length_append, List.length_replicate]
    omega
  unfold Builder.bufferRow
  rw [List.getD_eq_getElem?_getD, List.getElem?_set_self hlen]
  show Builder.bufferRow (tta ++ _) f ++ [(d, p)] = Builder.bufferRow tta f ++ [(d, p)]
  rw [bufferRow_append_replicate]

theorem bufferRow_createTransition_ne (tta : Builder.TransitionBuffer)
    (f d i : Nat) (p : Rat) (h : i ≠ f) :
    Builder.bufferRow (Builder.createTransition tta f d p) i =
      Builder.bufferRow tta i := by
  simp only [Builder.createTransition]
  unfold Builder.bufferRow
  rw [List.getD_eq_getElem?_getD, List.getElem?_set_ne (Ne.symm h),
    ← List.getD_eq_getElem?_getD]
  exact bufferRow_append_replicate tta _ i

theorem filter_flatMap_range (g : Nat → List (Nat × Nat × Rat))
    (hg : ∀ i, ∀ e ∈ g i, e.1 = i) (n r : Nat) :
    ((List.range n).flatMap g).filter (fun e => e.1 = r) =
      if r < n then g r else [] := by
  induction n with
  | zero => simp
  | succ n ih =>
    rw [List.range_succ, List.flatMap_append, List.filter_append, ih]
    by_cases hrn : r < n
    · have hne : r ≠ n := by omega
      have hnil : (g n).filter (fun e => e.1 = r) = [] := by
        rw [List.filter_eq_nil_iff]
        intro e he
        have := hg n e he
        simp [this]
        omega
      simp [hrn, hnil, Nat.lt_succ_of_lt hrn]
    · by_cases hrn2 : r = n
      · subst hrn2
        have hall : (g r).filter (fun e => e.1 = r) = g r := by
          rw [List.filter_eq_self]
          intro e he
          simp [hg r e he]
        simp [hrn, hall, Nat.lt_succ_self]
      · have hge : ¬ r < n + 1 := by omega
        have hnil : (g n).filter (fun e => e.1 = r) = [] := by
          rw [List.filter_eq_nil_iff]
          intro e he
          have := hg n e he
          simp [this]
          omega
        simp [hrn, hge, hnil]

theorem matrixRowEntries_flushRow (tta : Builder.TransitionBuffer) (r : Nat)
    (hr : r < tta.length) :
    Builder.matrixRowEntries (Builder.flushToTransitionMatrix tta) r =
      if (Builder.bufferRow tta r).isEmpty then [(r, r, 1)]
      else (Builder.bufferRow tta r).map (fun ti => (r, ti.1, ti.2)) := by
  unfold Builder.matrixRowEntries Builder.flushToTransitionMatrix
  rw [filter_flatMap_range _ ?_ tta.length r]
  · simp [hr]
  · intro i e he
    split at he
    · simp_all
    · simp only [List.mem_map] at he
      obtain ⟨ti, _, rfl⟩ := he
      rfl

theorem connectChoice_foldl (stateId : Nat) (choice : List (Nat × Rat)) :
    ∀ (tta : Builder.TransitionBuffer) (acc : Rat),
      (choice.foldl
        (fun (a : Builder.TransitionBuffer × Rat) p =>
          if p.1 ≠ 0 then (Builder.createTransition a.1 stateId p.1 p.2, a.2)
          else (a.1, a.2 + p.2))
        (tta, acc)).2 = acc + Builder.absorbedRate choice ∧
      Builder.bufferRow
        (choice.foldl
          (fun (a : Builder.TransitionBuffer × Rat) p =>
            if p.1 ≠ 0 then (Builder.createTransition a.1 stateId p.1 p.2, a.2)
            else (a.1, a.2 + p.2))
          (tta, acc)).1 stateId =
        Builder.bufferRow tta stateId ++ choice.filter (fun p => p.1 ≠ 0) := by
  induction choice with
  | nil => intro tta acc; simp [Builder.absorbedRate]
  | cons p ps ih =>
    intro tta acc
    by_cases hp : p.1 ≠ 0
    · rw [List.foldl_cons, if_pos hp]
      have h2 := ih (Builder.createTransition tta stateId p.1 p.2) acc
      constructor
      · rw [h2.1]
        have : Builder.absorbedRate (p :: ps) = Builder.absorbedRate ps := by
          simp [Builder.absorbedRate, List.filter_cons, hp]
        rw [this]
      · rw [h2.2, bufferRow_createTransition_self]
        rw [List.filter_cons]
        simp [hp, List.append_assoc]
    · rw [List.foldl_cons, if_neg hp]
      have hp0 : p.1 = 0 := by omega
      have h2 := ih tta (acc + p.2)
      constructor
      · rw [h2.1]
        have : Builder.absorbedRate (p :: ps) = p.2 + Builder.absorbedRate ps := by
          simp [Builder.absorbedRate, List.filter_cons, hp0]
        rw [this]
        ring
      · rw [h2.2]
        rw [List.filter_cons]
        simp [hp0]

theorem bufferRow_connectChoice (stateId : Nat)
    (tta : Builder.TransitionBuffer) (choice : List (Nat × Rat)) :
    Builder.bufferRow (Builder.connectChoice stateId tta choice) stateId =
      Builder.bufferRow tta stateId ++ Builder.choiceEdges choice := by
  simp only [Builder.connectChoice]
  rw [bufferRow_createTransition_self]
  have h := connectChoice_foldl stateId choice tta 0
  rw [h.1, h.2]
  simp [Builder.choiceEdges, List.append_assoc]

theorem bufferRow_foldl_connectChoice (stateId : Nat)
    (choices : List (List (Nat × Rat))) :
    ∀ tta, Builder.bufferRow (choices.foldl (Builder.connectChoice stateId) tta)
        stateId =
      Builder.bufferRow tta stateId ++ choices.flatMap Builder.choiceEdges := by
  induction choices with
  | nil => intro tta; simp
  | cons c cs ih =>
    intro tta
    rw [List.foldl_cons, ih, bufferRow_connectChoice]
    simp [List.append_assoc]

theorem mapFind_append_single_of_some {m : List (Nat × Rat)} {k : Nat}
    {q : Rat} (hq : mapFind m k = some q) (c : Nat) (v : Rat) :
    mapFind (m ++ [(c, v)]) k = some q := by
  unfold mapFind at hq ⊢
  rw [List.find?_append]
  rcases Option.map_eq_some'.mp hq with ⟨pr, hf, hv⟩
  simp [hf, hv]

/-!
## The claims
-/

/-- **C6.** The claim states that an empty initial-state set raises the
no-initial-states error and a non-empty one does not.  The legacy
`buildMatrices` has the check inverted: `if
(!this->stateStorage.initialStateIndices.empty())` emits the error message
"Initial states are empty!", so the error fires exactly when the initial
set is NOT empty, contradicting both the claim and the code's own error
text.  This theorem evaluates the embedded check at both inputs: no error
for the empty set, the error for a one-element set. -/
theorem claim_C6 :
    Legacy.initialStatesErrorEmitted [] = false ∧
    Legacy.initialStatesErrorEmitted [5] = true := by
  decide

/-- **C9 (counterexample).** The claim says every model type other than CTMC
surfaces an error and returns no model.  The current `build` dispatch on
`DTMC` builds the components, returns a DTMC model, and surfaces only a
warning. -/
theorem claim_C9_counterexample :
    (build ModelType.DTMC).model = some BuiltModelKind.Dtmc ∧
    (build ModelType.DTMC).errorSurfaced = false ∧
    (build ModelType.DTMC).componentsBuilt = true := by
  decide

/-- **C9 (amended).** The legacy `build` surfaces an error and returns no
model for every non-CTMC model type; the current `build` does so for `MDP`,
`POMDP` and `MA`, while a `DTMC` yields a warning and a built DTMC model is
still returned. -/
theorem claim_C9_amended (mt : ModelType) :
    (mt ≠ ModelType.CTMC →
      legacyBuild mt = { model := none, componentsBuilt := false
                         errorSurfaced := true, warningSurfaced := false }) ∧
    ((mt = ModelType.MDP ∨ mt = ModelType.POMDP ∨ mt = ModelType.MA) →
      build mt = { model := none, componentsBuilt := false
                   errorSurfaced := true, warningSurfaced := false }) ∧
    build ModelType.DTMC =
      { model := some BuiltModelKind.Dtmc, componentsBuilt := true
        errorSurfaced := false, warningSurfaced := true } := by
  cases mt <;> refine ⟨fun h => ?_, fun h => ?_, rfl⟩ <;>
    first
      | rfl
      | exact absurd rfl h
      | (rcases h with h | h | h <;> exact absurd h (by decide))

/-- Witness for C9 (amended) at `MDP`. -/
theorem claim_C9_witness :
    ModelType.MDP ≠ ModelType.CTMC ∧
    legacyBuild ModelType.MDP =
      { model := none, componentsBuilt := false
        errorSurfaced := true, warningSurfaced := false } ∧
    build ModelType.MDP =
      { model := none, componentsBuilt := false
        errorSurfaced := true, warningSurfaced := false } :=
  ⟨by decide, (claim_C9_amended ModelType.MDP).1 (by decide),
    (claim_C9_amended ModelType.MDP).2.1 (Or.inl rfl)⟩

/-- **C10.** The terminal-state callback `getStateIndexOrAbsorbing` returns
the registered id for a known state and 0 for an unknown one, and every
call leaves the state index store unchanged: no state is inserted and no id
allocated. -/
theorem claim_C10 (st : List (CompressedState × Nat)) (s : CompressedState) :
    (Builder.getStateIndexOrAbsorbing st s).2 = st ∧
    (Builder.getStateIndexOrAbsorbing st s).2.length = st.length ∧
    (∀ i, lookupState st s = some i →
      (Builder.getStateIndexOrAbsorbing st s).1 = i) ∧
    (lookupState st s = none →
      (Builder.getStateIndexOrAbsorbing st s).1 = 0) := by
  unfold Builder.getStateIndexOrAbsorbing
  cases h : lookupState st s with
  | some i =>
    refine ⟨rfl, rfl, fun j hj => ?_, fun hn => ?_⟩
    · cases hj; rfl
    · exact Option.noConfusion hn
  | none =>
    refine ⟨rfl, rfl, fun j hj => ?_, fun _ => rfl⟩
    exact Option.noConfusion hj

/-- Witness for C10: the callback on the registered state `[false]` returns
its id 1 and leaves the store untouched. -/
theorem claim_C10_witness :
    lookupState Examples.registeredTerminalBuilder.stateToId [false] = some 1 ∧
    (Builder.getStateIndexOrAbsorbing
      Examples.registeredTerminalBuilder.stateToId [false]).1 = 1 ∧
    (Builder.getStateIndexOrAbsorbing
      Examples.registeredTerminalBuilder.stateToId [false]).2 =
      Examples.registeredTerminalBuilder.stateToId :=
  ⟨by decide,
    (claim_C10 Examples.registeredTerminalBuilder.stateToId [false]).2.2.1 1
      (by decide),
    (claim_C10 Examples.registeredTerminalBuilder.stateToId [false]).1⟩

/-- **C3 (counterexample).** The claim says a successor is pushed iff its
record's `wasEnqueued` flag is false and it is either new or terminal.  The
state `[false]` is already registered (id 1, so not new), is terminal
(in `tSet`) and is not in the queue (so no queued marker of any kind), yet
`getOrAddStateIndex` pushes nothing, while the spec's policy
(`wasEnqueued = false`, `was_new = false`, `terminal = true`) demands a
push. -/
theorem claim_C3_counterexample :
    lookupState Examples.registeredTerminalBuilder.stateToId [false] = some 1 ∧
    Examples.registeredTerminalBuilder.tSet.contains 1 = true ∧
    Examples.registeredTerminalBuilder.statesToExplore = [] ∧
    (Legacy.getOrAddStateIndex Examples.registeredTerminalBuilder
      [false]).2.statesToExplore = [] ∧
    SpecModel.enqueuePolicySpec false false true = true := by
  decide

/-- **C3 (amended).** The legacy builder has no `wasEnqueued` flag and does
not re-enqueue known terminal successors: the state-to-id callback pushes a
successor onto the exploration queue iff the successor was newly registered
by `findOrAddAndGetBucket` and `shouldEnqueue` approves its fresh id.
Concretely (for a well-formed store whose registered ids are below the
store's size): if the successor is already registered, the queue is
unchanged, whatever the terminal sets contain; if it is new but the
probability map has no entry for its fresh id, the unexpected-state error
is logged and the queue is unchanged; if it is new and its fresh id has
π = q in the probability map, the pair is pushed iff `q = 0` or the state
currently being expanded is missing from `stateMap` or from
`exploredStates`. -/
theorem claim_C3_amended (b : Legacy.BuilderState) (s : CompressedState)
    (hwf : ∀ p ∈ b.stateToId, p.2 < b.stateToId.length) :
    (∀ i, lookupState b.stateToId s = some i →
      Legacy.getOrAddStateIndex b s = (i, b)) ∧
    (lookupState b.stateToId s = none →
      (mapFind b.piMap b.stateToId.length = none →
        (Legacy.getOrAddStateIndex b s).2.statesToExplore =
          b.statesToExplore ∧
        (Legacy.getOrAddStateIndex b s).2.log =
          b.log ++ [.unexpectedState b.stateToId.length]) ∧
      (∀ q, mapFind b.piMap b.stateToId.length = some q →
        ((Legacy.getOrAddStateIndex b s).2.statesToExplore =
            b.statesToExplore ++ [(s, b.stateToId.length)] ↔
          (q = 0 ∨ ¬(b.stateMap.contains b.currentState = true ∧
            b.exploredStates.contains b.currentState = true))))) := by
  constructor
  · intro i hi
    have hlt : i < b.stateToId.length := by
      unfold lookupState at hi
      rcases Option.map_eq_some'.mp hi with ⟨pr, hf, hv⟩
      exact hv ▸ hwf pr (List.mem_of_find?_eq_some hf)
    simp only [Legacy.getOrAddStateIndex, findOrAdd, hi]
    rw [if_neg (by omega)]
  · intro hn
    refine ⟨fun hf => ?_, fun q hq => ?_⟩
    · constructor <;>
        simp [Legacy.getOrAddStateIndex, findOrAdd, hn, Legacy.shouldEnqueue, hf]
    · have hg1 : mapGet b.piMap b.stateToId.length = q := by
        unfold mapGet
        rw [hq]
        rfl
      have hg2 : mapGet (b.piMap ++ [(b.currentState, 0)])
          b.stateToId.length = q := by
        unfold mapGet
        rw [mapFind_append_single_of_some hq]
        rfl
      have hqn : (mapFind b.piMap b.stateToId.length).isNone = false := by
        rw [hq]; rfl
      by_cases hcf : mapFind b.piMap b.currentState = none <;>
        (by_cases hq0 : q = 0
         · simp [Legacy.getOrAddStateIndex, findOrAdd, hn, Legacy.shouldEnqueue,
             hqn, hcf, hg1, hg2, hq0]
         · by_cases hcc : b.stateMap.contains b.currentState = true ∧
               b.exploredStates.contains b.currentState = true
           · obtain ⟨h1, h2⟩ := hcc
             have hm1 : b.currentState ∈ b.stateMap := by simpa using h1
             have hm2 : b.currentState ∈ b.exploredStates := by simpa using h2
             simp [Legacy.getOrAddStateIndex, findOrAdd, hn, Legacy.shouldEnqueue,
               hqn, hcf, hg1, hg2, hq0, hm1, hm2]
           · have hm : ¬(b.currentState ∈ b.stateMap ∧
                 b.currentState ∈ b.exploredStates) := by
               intro hmm
               exact hcc ⟨by simpa using hmm.1, by simpa using hmm.2⟩
             simp [Legacy.getOrAddStateIndex, findOrAdd, hn, Legacy.shouldEnqueue,
               hqn, hcf, hg1, hg2, hq0, hm]
             rw [if_pos (not_and_or.mp hm)])

/-- Witness for C3 (amended): the already-registered state `[false]` is
looked up and the builder is returned unchanged, with nothing pushed. -/
theorem claim_C3_witness :
    Legacy.getOrAddStateIndex Examples.registeredTerminalBuilder [false] =
      (1, Examples.registeredTerminalBuilder) :=
  (claim_C3_amended Examples.registeredTerminalBuilder [false]
    (by decide)).1 1 (by decide)

/-- **C4.** In perimeter re-expansion, the terminal-state callback returns
the registered id for a known successor and 0 for an unknown one, and
`connectTerminalStatesToAbsorbing` run with that callback on a terminal
state with non-empty behaviour records, per choice, every pair with a
non-zero mapped id as an edge with its rate unchanged, followed by a single
edge to state 0 carrying the sum of the rates of the pairs mapped to 0. -/
theorem claim_C4 (oracle : Legacy.Oracle)
    (store : List (CompressedState × Nat)) (t : CompressedState)
    (stateId : Nat) (tta : Builder.TransitionBuffer)
    (hne : oracle t ≠ []) :
    (∀ s i, lookupState store s = some i →
      (Builder.getStateIndexOrAbsorbing store s).1 = i) ∧
    (∀ s, lookupState store s = none →
      (Builder.getStateIndexOrAbsorbing store s).1 = 0) ∧
    Builder.connectTerminalStatesToAbsorbing oracle
        (fun s => (Builder.getStateIndexOrAbsorbing store s).1) t stateId tta
      = .ok
        (List.foldl (Builder.connectChoice stateId) tta
          ((oracle t).map (fun choice => choice.map
            (fun p => ((Builder.getStateIndexOrAbsorbing store p.1).1, p.2)))),
         []) ∧
    Builder.bufferRow
        (List.foldl (Builder.connectChoice stateId) tta
          ((oracle t).map (fun choice => choice.map
            (fun p => ((Builder.getStateIndexOrAbsorbing store p.1).1, p.2)))))
        stateId =
      Builder.bufferRow tta stateId ++
        List.flatMap
          ((oracle t).map (fun choice => choice.map
            (fun p => ((Builder.getStateIndexOrAbsorbing store p.1).1, p.2))))
          Builder.choiceEdges := by
  refine ⟨?_, ?_, ?_, ?_⟩
  · intro s i hi
    unfold Builder.getStateIndexOrAbsorbing
    rw [hi]
  · intro s hs
    unfold Builder.getStateIndexOrAbsorbing
    rw [hs]
  · rcases ho : oracle t with _ | ⟨c, cs⟩
    · exact absurd ho hne
    · simp [Builder.connectTerminalStatesToAbsorbing, ho]
  · exact bufferRow_foldl_connectChoice stateId _ tta

/-- Witness for C4: re-expanding the registered terminal state `[true]`
(id 0 in the store) whose single successor `[false]` is unknown. -/
theorem claim_C4_witness :
    Builder.connectTerminalStatesToAbsorbing Examples.chainOracle
        (fun s => (Builder.getStateIndexOrAbsorbing
          Examples.registeredTerminalBuilder.stateToId s).1) [true] 1 []
      = .ok
        (List.foldl (Builder.connectChoice 1) []
          ((Examples.chainOracle [true]).map (fun choice => choice.map
            (fun p => ((Builder.getStateIndexOrAbsorbing
              Examples.registeredTerminalBuilder.stateToId p.1).1, p.2)))),
         []) :=
  (claim_C4 Examples.chainOracle Examples.registeredTerminalBuilder.stateToId
    [true] 1 [] (by decide)).2.2.1

/-- **C8.** On a fresh store, `setUpAbsorbingState` seeds exactly one state
— the distinguished absorbing compressed state — at id 0; the pass driver
(modelled from the spec, which states that state 0 is never expanded)
leaves row 0 of the transition buffer empty; and flushing any buffer whose
row 0 is empty emits exactly one entry for row 0, the self-loop
`(0, 0, 1)`. -/
theorem claim_C8 :
    (∀ (vi : Builder.VariableInformation) (st : Builder.SetupState)
        (v : Builder.BooleanVariable) (a : CompressedState),
      st.stateToId = [] → st.absorbingWasSetUp = false →
      st.firstIteration = true →
      vi.booleanVariables.find? (fun w => w.name = "Absorbing") = some v →
      v.bitOffset + 1 < vi.totalBitOffset →
      Builder.mkAbsorbingState vi = some a →
      Builder.setUpAbsorbingState vi st = .ok
        { st with
            stateRemapping := st.stateRemapping ++ [0]
            absorbingState := a
            deadlockStateIndices := st.deadlockStateIndices ++ [0]
            stateToId := [(a, 0)]
            absorbingWasSetUp := true } ∧
      lookupState [(a, 0)] a = some 0 ∧
      (∀ s i, lookupState [(a, 0)] s = some i → i = 0 ∧ s = a)) ∧
    (∀ events : List (Nat × Nat × Rat), (∀ e ∈ events, e.1 ≠ 0) →
      Builder.bufferRow (Builder.passBuffer events) 0 = []) ∧
    (∀ tta : Builder.TransitionBuffer, 0 < tta.length →
      Builder.bufferRow tta 0 = [] →
      Builder.matrixRowEntries (Builder.flushToTransitionMatrix tta) 0 =
        [(0, 0, 1)]) := by
  refine ⟨?_, ?_, ?_⟩
  · intro vi st v a hstore hsetup hfirst hfind hbit hmk
    have ha : a = Builder.setBit (List.replicate vi.totalBitOffset false)
        (v.bitOffset + 1) := by
      unfold Builder.mkAbsorbingState at hmk
      rw [hfind] at hmk
      injection hmk with hmk
      exact hmk.symm
    have hgb : Builder.getBit (Builder.setBit
        (List.replicate vi.totalBitOffset false) (v.bitOffset + 1))
        (v.bitOffset + 1) = true := by
      unfold Builder.getBit Builder.setBit
      rw [List.getD_eq_getElem?_getD, List.getElem?_set_self]
      · rfl
      · rw [List.length_replicate]
        exact hbit
    refine ⟨?_, ?_, ?_⟩
    · simp only [Builder.setUpAbsorbingState, hsetup, hfirst, hfind,
        Bool.false_eq_true, if_false, if_true, hgb]
      rw [ha]
      simp [hgb, findOrAdd, lookupState, hstore]
    · simp [lookupState]
    · intro s i hsi
      unfold lookupState at hsi
      rcases Option.map_eq_some'.mp hsi with ⟨pr, hf, hv⟩
      rw [List.find?_cons] at hf
      split at hf
      · injection hf with hf
        subst hf
        refine ⟨hv.symm ▸ rfl, ?_⟩
        have := of_decide_eq_true (by assumption)
        exact this.symm
      · exact absurd hf (by simp)
  · intro events hev
    unfold Builder.passBuffer
    refine foldl_pres _ (fun tta => Builder.bufferRow tta 0 = []) events [] ?_ rfl
    intro tta e he htta
    rw [bufferRow_createTransition_ne _ _ _ _ _ (fun h0 => hev e he h0.symm)]
    exact htta
  · intro tta hlen h0
    rw [matrixRowEntries_flushRow tta 0 hlen, h0]
    rfl

/-- Witness for C8: the concrete variable information with an "Absorbing"
variable at bit offset 0, a fresh setup state, and a buffer built from two
events with non-zero sources. -/
theorem claim_C8_witness :
    Builder.setUpAbsorbingState Examples.absorbingVarInfo Examples.freshSetup =
      .ok { Examples.freshSetup with
              stateRemapping := Examples.freshSetup.stateRemapping ++ [0]
              absorbingState := [false, true, false]
              deadlockStateIndices :=
                Examples.freshSetup.deadlockStateIndices ++ [0]
              stateToId := [([false, true, false], 0)]
              absorbingWasSetUp := true } ∧
    Builder.bufferRow (Builder.passBuffer Examples.passEvents) 0 = [] ∧
    Builder.matrixRowEntries
        (Builder.flushToTransitionMatrix (Builder.passBuffer Examples.passEvents))
        0 = [(0, 0, 1)] :=
  ⟨(claim_C8.1 Examples.absorbingVarInfo Examples.freshSetup
      { name := "Absorbing", bitOffset := 0 } [false, true, false]
      rfl rfl rfl rfl (by decide) rfl).1,
    claim_C8.2.1 Examples.passEvents (by decide),
    claim_C8.2.2 (Builder.passBuffer Examples.passEvents) (by decide)
      (claim_C8.2.1 Examples.passEvents (by decide))⟩

/-- **C7 (counterexample).** The claim says the flush emits each row sorted
by destination ascending with duplicates merged.  On the buffer
`[[], [(2,5), (1,3)]]` the source flush emits row 1 as `(1,2,5), (1,1,3)` —
not sorted by destination ascending — while the flush described by the spec
would emit `(1,1,3), (1,2,5)`. -/
theorem claim_C7_counterexample :
    Builder.flushToTransitionMatrix Examples.unsortedNoDupBuffer =
      [(0, 0, 1), (1, 2, 5), (1, 1, 3)] ∧
    SpecModel.flushSpec Examples.unsortedNoDupBuffer =
      [(0, 0, 1), (1, 1, 3), (1, 2, 5)] ∧
    Builder.flushToTransitionMatrix Examples.unsortedNoDupBuffer ≠
      SpecModel.flushSpec Examples.unsortedNoDupBuffer := by
  decide

/-- **C7 (amended).** When the transition buffer is flushed, each row's
buffered entries are emitted in their insertion order, without sorting and
without merging duplicate destinations, and every row with no buffered
entries is materialised as a self-loop with rate 1. -/
theorem claim_C7_amended (tta : Builder.TransitionBuffer) (r : Nat)
    (hr : r < tta.length) :
    Builder.matrixRowEntries (Builder.flushToTransitionMatrix tta) r =
      if (Builder.bufferRow tta r).isEmpty then [(r, r, 1)]
      else (Builder.bufferRow tta r).map (fun ti => (r, ti.1, ti.2)) :=
  matrixRowEntries_flushRow tta r hr

/-- Witness for C7 (amended) on row 1 of the unsorted buffer. -/
theorem claim_C7_witness :
    1 < Examples.unsortedBuffer.length ∧
    Builder.matrixRowEntries
        (Builder.flushToTransitionMatrix Examples.unsortedBuffer) 1 =
      if (Builder.bufferRow Examples.unsortedBuffer 1).isEmpty then [(1, 1, 1)]
      else (Builder.bufferRow Examples.unsortedBuffer 1).map
        (fun ti => (1, ti.1, ti.2)) :=
  ⟨by decide, claim_C7_amended Examples.unsortedBuffer 1 (by decide)⟩

/-- **C5 (counterexample).** The claim says a state with empty oracle
behaviour is declared deadlocked without raising an error.  Popping the
queued non-terminal state `[true]` (id 1) under an oracle with no behaviour
makes the legacy exploration loop raise the fatal error
"Behavior for state 1 was empty!" instead. -/
theorem claim_C5_counterexample :
    Legacy.exploreStep Examples.emptyOracle 2
      { Examples.skipBuilder with tSet := [] } =
      .error (.emptyBehavior 1) := by
  rfl

/-- **C5 (amended).** In the legacy exploration loop a state whose oracle
behaviour is empty raises the fatal empty-behaviour error naming that
state.  Deadlock self-loops of rate 1 arise only at flush time in the
current builder, where a row with no buffered transitions is materialised
as `(row, row, 1)`; and re-expansion of a perimeter state with empty
behaviour emits a warning and adds no transitions, without an error. -/
theorem claim_C5_amended :
    (∀ (oracle : Legacy.Oracle) (s : CompressedState) (idx : Nat)
        (b : Legacy.BuilderState), oracle s = [] →
      Legacy.expandState oracle s idx b = .error (.emptyBehavior idx)) ∧
    (∀ (tta : Builder.TransitionBuffer) (r : Nat), r < tta.length →
      Builder.bufferRow tta r = [] →
      Builder.matrixRowEntries (Builder.flushToTransitionMatrix tta) r =
        [(r, r, 1)]) ∧
    (∀ (oracle : Legacy.Oracle) (cb : CompressedState → Nat)
        (t : CompressedState) (stateId : Nat)
        (tta : Builder.TransitionBuffer), oracle t = [] →
      Builder.connectTerminalStatesToAbsorbing oracle cb t stateId tta =
        .ok (tta, [.perimeterBehaviorEmpty])) := by
  refine ⟨?_, ?_, ?_⟩
  · intro oracle s idx b h
    simp [Legacy.expandState, h, Legacy.expandWithCallback, accumMap]
  · intro tta r hr hempty
    rw [matrixRowEntries_flushRow tta r hr, hempty]
    rfl
  · intro oracle cb t stateId tta h
    simp [Builder.connectTerminalStatesToAbsorbing, h]

/-- **C1.** When a popped state is terminal (in `tSet`) and its π is
strictly below κ, the legacy exploration step skips it: the oracle is not
consulted (`oracleCalls` unchanged), no outgoing edges are emitted, no
state is registered, and the state remains terminal (`tSet` untouched) —
the step only pops the queue, sets the current state and records the state
in `piMap` if absent.  A popped state that is non-terminal or has π ≥ κ is
expanded instead: the oracle is consulted exactly once (or the expansion
fails with the empty-behaviour error for that state). -/
theorem claim_C1 (oracle : Legacy.Oracle) (κ : Rat)
    (b : Legacy.BuilderState) (s : CompressedState) (idx : Nat)
    (rest : List (CompressedState × Nat))
    (hq : b.statesToExplore = (s, idx) :: rest) :
    (b.tSet.contains idx = true → mapGet b.piMap idx < κ →
      Legacy.exploreStep oracle κ b = .ok
        { b with statesToExplore := rest, currentState := idx
                 piMap := mapInsertIfAbsent b.piMap idx 0 }) ∧
    (¬(b.tSet.contains idx = true ∧ mapGet b.piMap idx < κ) →
      match Legacy.exploreStep oracle κ b with
      | .ok b' => b'.oracleCalls = b.oracleCalls + 1
      | .error e => e = .emptyBehavior idx) := by
  have hget : mapGet (mapInsertIfAbsent b.piMap idx 0) idx = mapGet b.piMap idx :=
    mapGet_mapInsertIfAbsent_zero b.piMap idx idx
  constructor
  · intro ht hpi
    have hcond : (b.tSet.contains idx &&
        decide (mapGet (mapInsertIfAbsent b.piMap idx 0) idx < κ)) = true := by
      rw [hget, Bool.and_eq_true]
      exact ⟨ht, decide_eq_true hpi⟩
    simp only [Legacy.exploreStep, hq]
    rw [if_pos hcond]
  · intro hns
    simp only [Legacy.exploreStep, hq]
    rw [if_neg]
    · cases hr : Legacy.expandState oracle s idx
          { b with statesToExplore := rest, currentState := idx
                   piMap := mapInsertIfAbsent b.piMap idx 0 } with
      | ok b' =>
        simp only []
        rw [expandState_ok_oracleCalls _ _ _ _ _ hr]
      | error e =>
        simp only []
        exact expandState_error_shape _ _ _ _ _ hr
    · rw [hget]
      intro hcontra
      rcases Bool.and_eq_true_iff.mp hcontra with ⟨h1, h2⟩
      exact hns ⟨h1, of_decide_eq_true h2⟩

/-- Witness for C1: the terminal state `[true]` (id 1, π = 1) is popped
under κ = 2 and skipped. -/
theorem claim_C1_witness :
    Examples.skipBuilder.statesToExplore = ([true], 1) :: [] ∧
    Examples.skipBuilder.tSet.contains 1 = true ∧
    mapGet Examples.skipBuilder.piMap 1 < 2 ∧
    Legacy.exploreStep Examples.chainOracle 2 Examples.skipBuilder = .ok
      { Examples.skipBuilder with
          statesToExplore := []
          currentState := 1
          piMap := mapInsertIfAbsent Examples.skipBuilder.piMap 1 0 } :=
  ⟨rfl, by decide, by decide,
    (claim_C1 Examples.chainOracle 2 Examples.skipBuilder [true] 1 [] rfl).1
      (by decide) (by decide)⟩

/-- **C2.** Processing one successor pair `(s', r)` during the expansion of
the state with index `curIdx` increments `π(s')` by `π(curIdx) * r` (both
read from the current probability map) and records the matrix entry
`(currentRow, s', r)` with the rate `r` unchanged; and any expansion that
completes leaves the expanded state's π at 0. -/
theorem claim_C2 :
    (∀ (b : Legacy.BuilderState) (curIdx s' : Nat) (r : Rat),
      mapGet (Legacy.processPair curIdx b (s', r)).piMap s' =
        mapGet b.piMap s' + mapGet b.piMap curIdx * r ∧
      (Legacy.processPair curIdx b (s', r)).matrixRows =
        b.matrixRows ++ [(b.currentRow, s', r)]) ∧
    (∀ (oracle : Legacy.Oracle) (s : CompressedState) (idx : Nat)
        (b b' : Legacy.BuilderState),
      Legacy.expandState oracle s idx b = .ok b' →
      mapGet b'.piMap idx = 0) := by
  constructor
  · intro b curIdx s' r
    constructor
    · show mapGet (mapSet (mapInsertIfAbsent b.piMap s' 0) s'
        (mapGet (mapInsertIfAbsent b.piMap s' 0) s' +
         mapGet (mapInsertIfAbsent b.piMap s' 0) curIdx * r)) s' = _
      rw [mapGet_mapSet_present]
      · rw [mapGet_mapInsertIfAbsent_zero, mapGet_mapInsertIfAbsent_zero]
      · rw [mapFind_mapInsertIfAbsent_self]
        rfl
    · rfl
  · intro oracle s idx b b' h
    exact expandState_ok_piZero oracle s idx b b' h

/-- Witness for C2: one pair `(2, 3)` processed from state 1 in a concrete
builder, and a concrete completed expansion whose final π is 0. -/
theorem claim_C2_witness :
    (mapGet (Legacy.processPair 1 Examples.skipBuilder (2, 3)).piMap 2 =
      mapGet Examples.skipBuilder.piMap 2 +
        mapGet Examples.skipBuilder.piMap 1 * 3 ∧
     (Legacy.processPair 1 Examples.skipBuilder (2, 3)).matrixRows =
      Examples.skipBuilder.matrixRows ++
        [(Examples.skipBuilder.currentRow, 2, 3)]) ∧
    Legacy.expandState Examples.emptyChoiceOracle [true] 1 Examples.expBuilder =
      .ok Examples.expandedBuilder ∧
    mapGet Examples.expandedBuilder.piMap 1 = 0 :=
  ⟨claim_C2.1 Examples.skipBuilder 1 2 3,
    rfl,
    claim_C2.2 Examples.emptyChoiceOracle [true] 1 Examples.expBuilder
      Examples.expandedBuilder rfl⟩

/-- Witness for C5 (amended): the empty oracle on `[true]`, row 0 of the
buffer `[[], [(2,5),(1,3),(1,4)]]`, and a perimeter re-expansion with empty
behaviour. -/
theorem claim_C5_witness :
    Examples.emptyOracle [true] = [] ∧
    Legacy.expandState Examples.emptyOracle [true] 1 Examples.expBuilder =
      .error (.emptyBehavior 1) ∧
    Builder.matrixRowEntries
      (Builder.flushToTransitionMatrix Examples.unsortedBuffer) 0 = [(0, 0, 1)] ∧
    Builder.connectTerminalStatesToAbsorbing Examples.emptyOracle
        (fun _ => 0) [true] 1 [] = .ok ([], [.perimeterBehaviorEmpty]) :=
  ⟨rfl,
    claim_C5_amended.1 Examples.emptyOracle [true] 1 Examples.expBuilder rfl,
    claim_C5_amended.2.1 Examples.unsortedBuffer 0 (by decide) (by decide),
    claim_C5_amended.2.2 Examples.emptyOracle (fun _ => 0) [true] 1 [] rfl⟩

end Stamina
